import Mathlib

/-!
Shallow embedding of the visual heuristic analysis engine of
design-critique-mcp (src/analyzers/color-analyzer.ts,
composition-analyzer.ts, accessibility-analyzer.ts,
typography-analyzer.ts and src/tools/design-analysis/index.ts).

JavaScript numbers are modelled as exact rationals (ℚ); the two places
where the source computes an irrational value (Math.sqrt in the radial
balance weights, the exponent 2.4 in WCAG relative luminance) are
modelled over ℝ.  `Math.round` is `jsRound` (round half up).  JavaScript
division by zero yields NaN/Infinity; Lean division by zero yields 0.
Every theorem whose truth could touch such a corner carries hypotheses
that keep the source away from it; each such spot is marked in a comment.
-/

/-- JavaScript `Math.round`: round half toward +∞, i.e. ⌊x + 1/2⌋. -/
def jsRound (q : ℚ) : ℤ := ⌊q + 1/2⌋

/-- `Math.max(...list)` for a nonempty list (the sole use sites guard
emptiness first; the default 0 is unreachable there). -/
def listMax : List ℚ → ℚ
  | [] => 0
  | x :: xs => xs.foldl max x

/-- `Math.min(...list)`, same conventions as `listMax`. -/
def listMin : List ℚ → ℚ
  | [] => 0
  | x :: xs => xs.foldl min x

/-- Distinct elements of a list in first-occurrence order: the key set of a
JavaScript `Map` built by insertion, and `[...new Set(xs)]`. -/
def dedupKeys {α : Type} [DecidableEq α] : List α → List α
  | [] => []
  | x :: xs => x :: dedupKeys (xs.filter (fun y => y ≠ x))
termination_by l => l.length
decreasing_by
  simp only [List.length_cons]
  exact Nat.lt_succ_of_le (List.length_filter_le _ _)

/-- Insert `a` into a list sorted descending by `key`, after every element of
equal key: one step of a stable descending sort. -/
def insertDescBy {α : Type} (key : α → ℚ) (a : α) : List α → List α
  | [] => [a]
  | b :: bs => if key b < key a then a :: b :: bs else b :: insertDescBy key a bs

/-- Stable sort, descending by `key`: the effect of JavaScript
`Array.prototype.sort` (stable per ES2019) with comparator
`(a, b) => key(b) - key(a)`. -/
def sortDescBy {α : Type} (key : α → ℚ) (l : List α) : List α :=
  l.foldl (fun acc a => insertDescBy key a acc) []

section ColorModule

/-- A parsed color: the RGB triple a canonical `#rrggbb` hex string denotes
(channels 0–255).  Hex parsing itself happens inside chroma-js and is
modelled at the boundary: a chroma parse failure is an `Option.none` at the
call sites that catch it. -/
structure Color where
  r : ℕ
  g : ℕ
  b : ℕ
deriving DecidableEq

/-- chroma-js `hsl.h` of a color, with the `|| 0` fallback the analyzer
applies: achromatic colors (max = min) have NaN hue, which `|| 0` maps
to 0.  chroma divides the channels by 255 first; that scaling cancels in
the hue ratios, so the formula is applied to the raw channels. -/
def hueOf (c : Color) : ℚ :=
  let maxC : ℕ := max c.r (max c.g c.b)
  let minC : ℕ := min c.r (min c.g c.b)
  if maxC = minC then 0
  else
    let d : ℚ := (maxC : ℚ) - (minC : ℚ)
    let raw : ℚ :=
      if c.r = maxC then ((c.g : ℚ) - (c.b : ℚ)) / d
      else if c.g = maxC then 2 + ((c.b : ℚ) - (c.r : ℚ)) / d
      else 4 + ((c.r : ℚ) - (c.g : ℚ)) / d
    let h := raw * 60
    if h < 0 then h + 360 else h

/-- The complementary test of `analyzeColorHarmony`: one unordered pair,
raw absolute hue difference strictly between 170 and 190. -/
def rawCompPair (h1 h2 : ℚ) : Bool :=
  decide (170 < |h1 - h2| ∧ |h1 - h2| < 190)

/-- `complementaryScore`: the double loop `i < j` counting pairs whose raw
hue difference lies in (170, 190). -/
def compPairCount : List ℚ → ℕ
  | [] => 0
  | h :: t => t.countP (fun h2 => rawCompPair h h2) + compPairCount t

/-- One triple of the triadic check: sort the three hues ascending (the
middle one is the sum minus min and max), take the two consecutive gaps and
the wrap-around gap, and ask that each is within 30 of 120. -/
def isTriadic (a b c : ℚ) : Bool :=
  let lo := min a (min b c)
  let hi := max a (max b c)
  let mid := a + b + c - lo - hi
  decide (|mid - lo - 120| < 30 ∧ |hi - mid - 120| < 30 ∧ |360 - hi + lo - 120| < 30)

/-- Inner two loops of `checkTriadicHarmony` with the first hue fixed. -/
def triadPairs (a : ℚ) : List ℚ → ℕ
  | [] => 0
  | b :: t => t.countP (fun c => isTriadic a b c) + triadPairs a t

/-- `checkTriadicHarmony`: count of index triples i < j < k that pass
`isTriadic`. -/
def checkTriadicHarmony : List ℚ → ℕ
  | [] => 0
  | a :: t => triadPairs a t + checkTriadicHarmony t

/-- Result of `analyzeColorHarmony`. -/
structure Harmony where
  harmony_type : String
  score : ℕ
deriving DecidableEq

/-- `ColorAnalyzer.analyzeColorHarmony`.  Invalid hex strings fall back to
`#000000` inside the source's map; the model receives parsed colors, so
that fallback is pre-applied by the caller. -/
def analyzeColorHarmony (colors : List Color) : Harmony :=
  if colors.length < 2 then ⟨"insufficient_colors", 0⟩
  else
    let hues := colors.map hueOf
    let complementaryScore := compPairCount hues
    let hueRange := listMax hues - listMin hues
    let triadicScore := checkTriadicHarmony hues
    if 0 < complementaryScore then
      ⟨"complementary", min (85 + complementaryScore * 5) 100⟩
    else if 0 < triadicScore then
      ⟨"triadic", min (80 + triadicScore * 5) 100⟩
    else if hueRange < 60 then ⟨"analogous", 80⟩
    else if hueRange < 120 then ⟨"split_complementary", 70⟩
    else ⟨"mixed", 60⟩

/-- WCAG channel linearization used by chroma-js `luminance()`:
c/255, then c ≤ 0.03928 ? c/12.92 : ((c+0.055)/1.055)^2.4. -/
noncomputable def channelLin (v : ℕ) : ℝ :=
  let c : ℝ := (v : ℝ) / 255
  if c ≤ 0.03928 then c / 12.92 else ((c + 0.055) / 1.055) ^ (2.4 : ℝ)

/-- chroma-js relative luminance. -/
noncomputable def luminance (c : Color) : ℝ :=
  0.2126 * channelLin c.r + 0.7152 * channelLin c.g + 0.0722 * channelLin c.b

open Classical in
/-- chroma-js `contrast(a, b)`:
`l1 > l2 ? (l1+0.05)/(l2+0.05) : (l2+0.05)/(l1+0.05)`. -/
noncomputable def contrastVal (c1 c2 : Color) : ℝ :=
  let l1 := luminance c1
  let l2 := luminance c2
  if l2 < l1 then (l1 + 0.05) / (l2 + 0.05) else (l2 + 0.05) / (l1 + 0.05)

/-- `ColorAnalyzer.calculateContrast`: chroma parse of either argument
throws on an unparsable color, and the catch returns 1. -/
noncomputable def calculateContrast (foreground background : Option Color) : ℝ :=
  match foreground, background with
  | some fg, some bg => contrastVal fg bg
  | _, _ => 1

end ColorModule

section AccessibilityModule

/-- One entry of the accessibility contrast matrix, as consumed by
`calculateAccessibilityScore`.  The score function reads only the ratio
and the two pass flags; the colors and the positional label ride along. -/
structure ContrastCheck where
  foreground : Color
  background : Color
  ratioVal : ℚ
  passes_aa : Bool
  passes_aaa : Bool
  location : String
deriving DecidableEq

/-- The three dichromatic-safety booleans. -/
structure ColorBlindnessSim where
  protanopia_safe : Bool
  deuteranopia_safe : Bool
  tritanopia_safe : Bool
deriving DecidableEq

/-- `[b1, b2, b3].filter(Boolean).length`. -/
def cbSafeCount (cb : ColorBlindnessSim) : ℕ :=
  (if cb.protanopia_safe then 1 else 0) + (if cb.deuteranopia_safe then 1 else 0)
    + (if cb.tritanopia_safe then 1 else 0)

/-- `AccessibilityAnalyzer.calculateAccessibilityScore`. -/
def calculateAccessibilityScore (checks : List ContrastCheck)
    (cb : ColorBlindnessSim) : ℤ :=
  let n : ℚ := checks.length
  let contrastPart : ℚ :=
    if 0 < checks.length then
      ((checks.countP (fun c => c.passes_aa) : ℚ) / n) * 25
        + ((checks.countP (fun c => c.passes_aaa) : ℚ) / n) * 15
    else 0
  let cbPart : ℚ := ((cbSafeCount cb : ℚ) / 3) * 30
  let bonus : ℚ :=
    if 0 < checks.length then
      let averageRatio := (checks.map (fun c => c.ratioVal)).sum / n
      if 10 < averageRatio then 10 else if 7 < averageRatio then 5 else 0
    else 0
  jsRound (min (contrastPart + cbPart + bonus) 100)

/-- The score formula exactly as the spec words it: 25 times the AA
fraction, 15 times the AAA fraction, 10 per deficiency-safety boolean,
the mean-ratio bonus, capped at 100 and rounded; fraction and bonus
terms are 0 when there are no contrast pairs.  Stated from the spec for
comparison against `calculateAccessibilityScore`. -/
def accessibilityScoreSpec (checks : List ContrastCheck)
    (cb : ColorBlindnessSim) : ℤ :=
  let n : ℚ := checks.length
  let aaFrac : ℚ := if checks.length = 0 then 0 else (checks.countP (fun c => c.passes_aa) : ℚ) / n
  let aaaFrac : ℚ := if checks.length = 0 then 0 else (checks.countP (fun c => c.passes_aaa) : ℚ) / n
  let meanRatio : ℚ := if checks.length = 0 then 0 else (checks.map (fun c => c.ratioVal)).sum / n
  let bonus : ℚ :=
    if checks.length = 0 then 0
    else if 10 < meanRatio then 10 else if 7 < meanRatio then 5 else 0
  jsRound (min (25 * aaFrac + 15 * aaaFrac + 10 * (cbSafeCount cb : ℚ) + bonus) 100)

/-- Result of the public `checkColorCombination` utility. -/
structure CombinationCheck where
  ratioVal : ℝ
  passes_aa : Bool
  passes_aaa : Bool
  recommendation : String

open Classical in
/-- `AccessibilityAnalyzer.checkColorCombination`.  chroma.contrast throws
when either string fails to parse; the try/catch turns that into the fixed
`ratio 0 / false / false` record.  Parsing is modelled at the boundary:
the arguments are the parse results of the two input strings. -/
noncomputable def checkColorCombination (foreground background : Option Color) :
    CombinationCheck :=
  match foreground, background with
  | some fg, some bg =>
    let r := contrastVal fg bg
    let passes_aa := decide (4.5 ≤ r)
    let passes_aaa := decide ((7 : ℝ) ≤ r)
    let recommendation :=
      if ¬ (4.5 ≤ r) then "Increase contrast significantly - fails WCAG AA standards"
      else if ¬ ((7 : ℝ) ≤ r) then "Good contrast for AA, consider increasing for AAA standards"
      else "Excellent contrast - meets all WCAG standards"
    ⟨r, passes_aa, passes_aaa, recommendation⟩
  | _, _ => ⟨0, false, false, "Invalid color combination"⟩

end AccessibilityModule

section Aggregator

/-- `DesignAnalysisTools.calculateOverallScore`: the fixed weights 0.25 /
0.30 / 0.25 / 0.20 applied in the insertion order of the scores object. -/
def calculateOverallScore (color composition typography accessibility : ℚ) : ℤ :=
  jsRound (color * 0.25 + composition * 0.30 + typography * 0.25
    + accessibility * 0.20)

/-- The aggregation formula as the spec words it. -/
def overallScoreSpec (color composition typography accessibility : ℚ) : ℤ :=
  jsRound (0.25 * color + 0.30 * composition + 0.25 * typography
    + 0.20 * accessibility)

end Aggregator

section TypographyModule

/-- A validated OCR word box (confidence > 30 filtering happens upstream in
`extractTextRegions`). -/
structure TextBox where
  text : String
  x : ℚ
  y : ℚ
  width : ℚ
  height : ℚ
  confidence : ℚ
deriving DecidableEq

/-- `TypographyAnalyzer.estimateFontCount`: bucket heights by
`Math.round(h/5)*5`, keep buckets whose key exceeds 8, clamp the count
to [1, 4]; an empty list short-circuits to 0. -/
def estimateFontCount (textRegions : List TextBox) : ℕ :=
  if textRegions.length = 0 then 0
  else
    let keys : List ℤ := textRegions.map (fun reg => 5 * jsRound (reg.height / 5))
    let distinctHeights := (dedupKeys keys).filter (fun h => decide (8 < h))
    max 1 (min distinctHeights.length 4)

/-- `TypographyAnalyzer.analyzeHierarchy`. -/
def analyzeHierarchy (textRegions : List TextBox) : ℕ :=
  if textRegions.length = 0 then 0
  else
    let sortedRegions := sortDescBy (fun reg => reg.height) textRegions
    let sizes := sortedRegions.map (fun reg => reg.height)
    let uniqueSizes : List ℤ := dedupKeys (sizes.map (fun s => 2 * jsRound (s / 2)))
    let base :=
      (if 2 ≤ uniqueSizes.length then 30 else 0)
        + (if 3 ≤ uniqueSizes.length then 20 else 0)
        + (if 4 ≤ uniqueSizes.length then 10 else 0)
    let sizeDifferences := List.zipWith (fun a b => a - b) uniqueSizes (uniqueSizes.drop 1)
    let progression := if sizeDifferences.all (fun d => decide (2 ≤ d)) then 20 else 0
    let largestSize := listMax sizes
    let largestTextCount := sizes.countP (fun s => decide (s = largestSize))
    let sparseTop :=
      if (largestTextCount : ℚ) / (sizes.length : ℚ) < 3/10 then 20 else 0
    min (base + progression + sparseTop) 100

/-- `TypographyAnalyzer.calculateTextDensity`: total box area over the area
of the common bounding box.  (A zero-area bounding box gives NaN in the
source and 0 here; the analyzer only reaches this with at least one box.) -/
def calculateTextDensity (textRegions : List TextBox) : ℚ :=
  if textRegions.length = 0 then 0
  else
    let totalTextArea := (textRegions.map (fun reg => reg.width * reg.height)).sum
    let minX := listMin (textRegions.map (fun reg => reg.x))
    let maxX := listMax (textRegions.map (fun reg => reg.x + reg.width))
    let minY := listMin (textRegions.map (fun reg => reg.y))
    let maxY := listMax (textRegions.map (fun reg => reg.y + reg.height))
    totalTextArea / ((maxX - minX) * (maxY - minY))

/-- `TypographyAnalyzer.calculateLineLengths`: group boxes into lines by
`Math.round(y/5)*5` and sum the character counts per line, in
first-occurrence key order. -/
def calculateLineLengths (textRegions : List TextBox) : List ℕ :=
  let keyOf := fun (reg : TextBox) => 5 * jsRound (reg.y / 5)
  (dedupKeys (textRegions.map keyOf)).map (fun k =>
    ((textRegions.filter (fun reg => keyOf reg = k)).map
      (fun reg => reg.text.length)).sum)

/-- `TypographyAnalyzer.analyzeReadability`. -/
def analyzeReadability (textRegions : List TextBox) : ℕ :=
  if textRegions.length = 0 then 0
  else
    let n : ℚ := textRegions.length
    let averageHeight := (textRegions.map (fun reg => reg.height)).sum / n
    let sizePart :=
      if 12 ≤ averageHeight then 25
      else if 10 ≤ averageHeight then 15
      else if 8 ≤ averageHeight then 10 else 0
    let textDensity := calculateTextDensity textRegions
    let densityPart :=
      if textDensity < 7/10 then 25 else if textDensity < 85/100 then 15 else 0
    let averageConfidence := (textRegions.map (fun reg => reg.confidence)).sum / n
    let confidencePart :=
      if 80 ≤ averageConfidence then 25
      else if 60 ≤ averageConfidence then 15
      else if 40 ≤ averageConfidence then 10 else 0
    let lineLengths := calculateLineLengths textRegions
    let averageLineLength :=
      ((lineLengths.map (fun l => (l : ℚ))).sum) / (lineLengths.length : ℚ)
    let linePart :=
      if 30 ≤ averageLineLength ∧ averageLineLength ≤ 75 then 25
      else if 20 ≤ averageLineLength ∧ averageLineLength ≤ 90 then 15 else 0
    min (sizePart + densityPart + confidencePart + linePart) 100

end TypographyModule

section CompositionModule

/-- A decoded RGBA raster as Jimp exposes it: dimensions plus per-pixel
channel bytes.  Out-of-range coordinates are never accessed by the
analyzer's loops. -/
structure Pixel where
  r : ℕ
  g : ℕ
  b : ℕ
  a : ℕ
deriving DecidableEq

structure Raster where
  width : ℕ
  height : ℕ
  pix : ℕ → ℕ → Pixel

/-- `(pixel.r + pixel.g + pixel.b) / 3`, the brightness used throughout the
composition analyzer. -/
def brightness (p : Pixel) : ℚ := ((p.r : ℚ) + p.g + p.b) / 3

/-- Every pixel of the raster is the same RGBA value. -/
def Uniform (img : Raster) (c : Pixel) : Prop :=
  ∀ x, x < img.width → ∀ y, y < img.height → img.pix x y = c

instance (img : Raster) (c : Pixel) : Decidable (Uniform img c) := by
  unfold Uniform; infer_instance

/-- Jimp `greyscale()`: each pixel's channels replaced by
`parseInt(0.2126 r + 0.7152 g + 0.0722 b)` (truncation; the value is
nonnegative so truncation is the floor). -/
def greyValue (p : Pixel) : ℕ :=
  (⌊(0.2126 : ℚ) * p.r + 0.7152 * p.g + 0.0722 * p.b⌋).toNat

def greyscale (img : Raster) : Raster :=
  { img with pix := fun x y =>
      let p := img.pix x y
      ⟨greyValue p, greyValue p, greyValue p, p.a⟩ }

/-- Whether column pixel (x, y) is an edge pixel for the vertical-line scan:
brightness differs from the left or right neighbor by more than 30. -/
def isEdgeV (img : Raster) (x y : ℕ) : Bool :=
  let centerB := brightness (img.pix x y)
  let leftB := brightness (img.pix (x - 1) y)
  let rightB := brightness (img.pix (x + 1) y)
  decide (30 < |centerB - leftB| ∨ 30 < |centerB - rightB|)

/-- Row analogue of `isEdgeV` with the top and bottom neighbors. -/
def isEdgeH (img : Raster) (x y : ℕ) : Bool :=
  let centerB := brightness (img.pix x y)
  let topB := brightness (img.pix x (y - 1))
  let bottomB := brightness (img.pix x (y + 1))
  decide (30 < |centerB - topB| ∨ 30 < |centerB - bottomB|)

/-- `filterCloseLines`: keep the head of each cluster, dropping any line
closer than `minDistance` to the last kept one. -/
def filterCloseLinesAux (minDistance : ℕ) (last : ℕ) : List ℕ → List ℕ
  | [] => []
  | x :: xs =>
    if (minDistance : ℤ) ≤ (x : ℤ) - (last : ℤ) then
      x :: filterCloseLinesAux minDistance x xs
    else filterCloseLinesAux minDistance last xs

def filterCloseLines (lines : List ℕ) (minDistance : ℕ) : List ℕ :=
  match lines with
  | [] => []
  | x :: xs => x :: filterCloseLinesAux minDistance x xs

/-- `detectVerticalLines`: interior columns (1 ≤ x ≤ width−2) whose count of
edge pixels over the interior rows exceeds 10% of the height, clusters
merged below 20px. -/
def detectVerticalLines (img : Raster) : List ℕ :=
  let lines := (List.range' 1 (img.width - 2)).filter (fun x =>
    let edgeCount := (List.range' 1 (img.height - 2)).countP (fun y => isEdgeV img x y)
    decide ((img.height : ℚ) * (1/10) < (edgeCount : ℚ)))
  filterCloseLines lines 20

/-- `detectHorizontalLines`, the row analogue. -/
def detectHorizontalLines (img : Raster) : List ℕ :=
  let lines := (List.range' 1 (img.height - 2)).filter (fun y =>
    let edgeCount := (List.range' 1 (img.width - 2)).countP (fun x => isEdgeH img x y)
    decide ((img.width : ℚ) * (1/10) < (edgeCount : ℚ)))
  filterCloseLines lines 20

structure SpacingInfo where
  consistent : Bool
  averageSpacing : ℚ

/-- `analyzeLineSpacing`.  The source compares
`Math.sqrt(variance) < average * 0.3`; with variance ≥ 0 that holds iff
`0 < average ∧ variance < (average * 0.3)^2`, which is the (equivalent)
rational form used here.  The `dimension` parameter is unused, as in the
source. -/
def analyzeLineSpacing (lines : List ℕ) (_dimension : ℕ) : SpacingInfo :=
  if lines.length < 3 then ⟨false, 0⟩
  else
    let spacings : List ℚ :=
      List.zipWith (fun prev next => (next : ℚ) - (prev : ℚ)) lines (lines.drop 1)
    let averageSpacing := spacings.sum / (spacings.length : ℚ)
    let varianceSp :=
      (spacings.map (fun s => (s - averageSpacing) ^ 2)).sum / (spacings.length : ℚ)
    ⟨decide (2 ≤ spacings.length ∧ 0 < averageSpacing
      ∧ varianceSp < (averageSpacing * (3/10)) ^ 2), averageSpacing⟩

/-- `analyzeGridAlignment`: line detection on the greyscaled clone; both
axes' spacings must be consistent. -/
def analyzeGridAlignment (img : Raster) : Bool :=
  let edgeImage := greyscale img
  let verticalLines := detectVerticalLines edgeImage
  let horizontalLines := detectHorizontalLines edgeImage
  (analyzeLineSpacing verticalLines img.width).consistent
    && (analyzeLineSpacing horizontalLines img.height).consistent

/-- One cell of the 3×3 partition. -/
structure Region where
  x : ℕ
  y : ℕ
  width : ℕ
  height : ℕ
deriving DecidableEq

/-- `divideIntoRegions`: nine regions, row-major, each exactly
⌊width/3⌋ × ⌊height/3⌋ and anchored at multiples of those sizes. -/
def divideIntoRegions (w h : ℕ) : List Region :=
  (List.range 3).flatMap (fun row => (List.range 3).map (fun col =>
    ⟨col * (w / 3), row * (h / 3), w / 3, h / 3⟩))

/-- Pixel (x, y) lies inside the region. -/
def covers (reg : Region) (x y : ℕ) : Prop :=
  reg.x ≤ x ∧ x < reg.x + reg.width ∧ reg.y ≤ y ∧ y < reg.y + reg.height

instance (reg : Region) (x y : ℕ) : Decidable (covers reg x y) := by
  unfold covers; infer_instance

/-- Brightness samples of the region clipped to the raster, row-major as the
source's nested loops produce them. -/
def regionBrightnessList (img : Raster) (reg : Region) : List ℚ :=
  (List.range' reg.y (min (reg.y + reg.height) img.height - reg.y)).flatMap (fun y =>
    (List.range' reg.x (min (reg.x + reg.width) img.width - reg.x)).map (fun x =>
      brightness (img.pix x y)))

/-- `calculateRegionContrast`: max − min brightness, 0 for an empty region. -/
def calculateRegionContrast (img : Raster) (reg : Region) : ℚ :=
  let brightnesses := regionBrightnessList img reg
  if brightnesses.length = 0 then 0
  else listMax brightnesses - listMin brightnesses

/-- `calculateRegionBrightness`: mean brightness, 0 for an empty region. -/
def calculateRegionBrightness (img : Raster) (reg : Region) : ℚ :=
  let brightnesses := regionBrightnessList img reg
  if 0 < brightnesses.length then brightnesses.sum / brightnesses.length else 0

/-- `describeRegionPosition` returns `positions[4]` regardless of the
region's coordinates. -/
def describeRegionPosition (_reg : Region) : String := "center"

structure RegionInfo where
  reg : Region
  contrast : ℚ
  bright : ℚ

/-- `analyzeVisualHierarchy`: rank the nine regions by contrast+brightness
(stable descending sort) and emit the templated strings. -/
def analyzeVisualHierarchy (img : Raster) (design_type : String) : List String :=
  let regionAnalysis :=
    sortDescBy (fun info => info.contrast + info.bright)
      ((divideIntoRegions img.width img.height).map (fun reg =>
        RegionInfo.mk reg (calculateRegionContrast img reg)
          (calculateRegionBrightness img reg)))
  let top := regionAnalysis.headD ⟨⟨0, 0, 0, 0⟩, 0, 0⟩
  let second := (regionAnalysis.drop 1).headD ⟨⟨0, 0, 0, 0⟩, 0, 0⟩
  let first :=
    if 0 < regionAnalysis.length ∧ 30 < top.contrast then
      ["Strong focal point detected in " ++ describeRegionPosition top.reg]
    else ["Balanced composition with no dominant focal point"]
  let secondary :=
    if 1 < regionAnalysis.length ∧ 20 < second.contrast then
      ["Secondary emphasis in " ++ describeRegionPosition second.reg]
    else []
  let typeHint :=
    if design_type = "web" then ["Layout follows web design conventions"]
    else if design_type = "mobile" then ["Vertical flow optimized for mobile viewing"]
    else if design_type = "print" then ["Traditional print layout hierarchy"]
    else []
  first ++ secondary ++ typeHint

/-- `getImageHalf(image, 'left')`: brightnesses of the left half, row-major,
columns 0 … ⌊width/2⌋−1. -/
def leftHalfList (img : Raster) : List ℚ :=
  (List.range img.height).flatMap (fun y =>
    (List.range (img.width / 2)).map (fun x => brightness (img.pix x y)))

/-- `getImageHalf(image, 'right')`: the mirrored right half, reading column
`width − 1 − x` for x = 0 … ⌊width/2⌋−1. -/
def rightHalfList (img : Raster) : List ℚ :=
  (List.range img.height).flatMap (fun y =>
    (List.range (img.width / 2)).map (fun x =>
      brightness (img.pix (img.width - 1 - x) y)))

/-- `compareImageHalves`: 1 − (mean absolute difference)/255, clamped at 0.
(An empty half gives NaN in the source and, via 0/0 = 0, the value 1 here;
`analyzeBalance` is only reasoned about on rasters of width ≥ 2 and height
≥ 1 or behind the radial short-circuit, where the two agree.) -/
def compareImageHalves (left right : List ℚ) : ℚ :=
  let diffs := List.zipWith (fun a b => |a - b|) left right
  let averageDifference := diffs.sum / (diffs.length : ℚ)
  max 0 (1 - averageDifference / 255)

/-- The pixels the radial scan keeps: integer coordinates whose distance to
the image center is at most `maxRadius = min(width/2, height/2)`.  The
source compares `Math.sqrt(dx²+dy²) ≤ maxRadius`; both sides are
nonnegative, so the square comparison below is equivalent (and keeps the
set decidable). -/
def inRadiusPts (img : Raster) : Finset (ℕ × ℕ) :=
  (Finset.range img.width ×ˢ Finset.range img.height).filter (fun p =>
    ((p.1 : ℚ) - (img.width : ℚ) / 2) ^ 2 + ((p.2 : ℚ) - (img.height : ℚ) / 2) ^ 2
      ≤ (min ((img.width : ℚ) / 2) ((img.height : ℚ) / 2)) ^ 2)

noncomputable def centerXR (img : Raster) : ℝ := (img.width : ℝ) / 2

noncomputable def centerYR (img : Raster) : ℝ := (img.height : ℝ) / 2

noncomputable def maxRadiusR (img : Raster) : ℝ := min (centerXR img) (centerYR img)

/-- `Math.sqrt(dx*dx + dy*dy)` for pixel (x, y). -/
noncomputable def pixelDistR (img : Raster) (x y : ℕ) : ℝ :=
  Real.sqrt (((x : ℝ) - centerXR img) ^ 2 + ((y : ℝ) - centerYR img) ^ 2)

/-- The radial weight `1 − distance/maxRadius`. -/
noncomputable def radialWeight (img : Raster) (x y : ℕ) : ℝ :=
  1 - pixelDistR img x y / maxRadiusR img

noncomputable def brightnessR (img : Raster) (x y : ℕ) : ℝ :=
  ((brightness (img.pix x y) : ℚ) : ℝ)

noncomputable def radialTotalWeight (img : Raster) : ℝ :=
  ∑ p ∈ inRadiusPts img, radialWeight img p.1 p.2

noncomputable def radialWeightedSum (img : Raster) : ℝ :=
  ∑ p ∈ inRadiusPts img, brightnessR img p.1 p.2 * radialWeight img p.1 p.2

/-- The radially-weighted average brightness
`weightedSum / totalWeight`. -/
noncomputable def radialAverage (img : Raster) : ℝ :=
  radialWeightedSum img / radialTotalWeight img

/-- `calculateRadialVariance`: mean squared deviation from the radial
average over the in-radius pixels, 0 when no pixel qualifies. -/
noncomputable def calculateRadialVariance (img : Raster) : ℝ :=
  if 0 < (inRadiusPts img).card then
    (∑ p ∈ inRadiusPts img, (brightnessR img p.1 p.2 - radialAverage img) ^ 2)
      / ((inRadiusPts img).card : ℝ)
  else 0

/-- `analyzeRadialBalance`: `max(0, 1 − variance/10000)`. -/
noncomputable def analyzeRadialBalance (img : Raster) : ℝ :=
  max 0 (1 - calculateRadialVariance img / 10000)

inductive Balance where
  | symmetric
  | asymmetric
  | radial
deriving DecidableEq

open Classical in
/-- `analyzeBalance`: radial if the radial score exceeds 0.7, else symmetric
if the left/right similarity exceeds 0.8, else asymmetric. -/
noncomputable def analyzeBalance (img : Raster) : Balance :=
  let symmetryScore : ℝ := ((compareImageHalves (leftHalfList img) (rightHalfList img) : ℚ) : ℝ)
  let radialScore := analyzeRadialBalance img
  if 0.7 < radialScore then Balance.radial
  else if 0.8 < symmetryScore then Balance.symmetric
  else Balance.asymmetric

/-- The sample coordinates `0, step, 2·step, …` below `dim` of
`analyzeSpacing`'s grid walk, with `step = ⌊dim/10⌋`.  For `dim < 10` the
source's loop increments by 0 and never terminates; that divergence is not
representable, so the model returns no points there and every theorem about
spacing assumes `10 ≤ dim`. -/
def sampleCoords (dim step : ℕ) : List ℕ :=
  if step = 0 then []
  else (List.range ((dim + step - 1) / step)).map (fun i => i * step)

/-- `checkLocalSpacing`: fraction of bright (brightness > 200) pixels in the
20px window around the point lies strictly between 0.3 and 0.8. -/
def checkLocalSpacing (img : Raster) (centerX centerY : ℕ) : Bool :=
  let xs := List.range' (centerX - 20) (min img.width (centerX + 20) - (centerX - 20))
  let ys := List.range' (centerY - 20) (min img.height (centerY + 20) - (centerY - 20))
  let window := ys.flatMap (fun y => xs.map (fun x => brightness (img.pix x y)))
  let whitePixels := window.countP (fun b => decide (200 < b))
  let whiteSpaceRatio := (whitePixels : ℚ) / (window.length : ℚ)
  decide (3/10 < whiteSpaceRatio ∧ whiteSpaceRatio < 8/10)

/-- `analyzeSpacing`: sample a ~10×10 grid of points; consistent iff more
than 60% of the sampled windows pass `checkLocalSpacing`. -/
def analyzeSpacing (img : Raster) : Bool :=
  let pts := (sampleCoords img.height (img.height / 10)).flatMap (fun y =>
    (sampleCoords img.width (img.width / 10)).map (fun x => (x, y)))
  let totalChecks := pts.length
  let consistentSpacing := pts.countP (fun p => checkLocalSpacing img p.1 p.2)
  decide (0 < totalChecks ∧ 6/10 < (consistentSpacing : ℚ) / (totalChecks : ℚ))

/-- `calculateLocalContrast`: max − min brightness over the 10px window
around the point, 0 for an empty window. -/
def calculateLocalContrast (img : Raster) (centerX centerY : ℕ) : ℚ :=
  let xs := List.range' (centerX - 10) (min img.width (centerX + 10) - (centerX - 10))
  let ys := List.range' (centerY - 10) (min img.height (centerY + 10) - (centerY - 10))
  let brightnesses := ys.flatMap (fun y => xs.map (fun x => brightness (img.pix x y)))
  if brightnesses.length = 0 then 0
  else listMax brightnesses - listMin brightnesses

/-- `checkRuleOfThirds`: 5 points per thirds-grid intersection whose local
contrast exceeds 50 (the floor of the real-valued thirds is the Nat
division), capped at 30. -/
def checkRuleOfThirds (img : Raster) : ℕ :=
  let verticalThirds := [img.width / 3, 2 * img.width / 3]
  let horizontalThirds := [img.height / 3, 2 * img.height / 3]
  let hits := (verticalThirds.flatMap (fun x => horizontalThirds.map (fun y => (x, y)))).countP
    (fun p => decide (50 < calculateLocalContrast img p.1 p.2))
  min (5 * hits) 30

/-- `calculateAlignmentScore`: +25 per axis with ≥2 detected lines (on the
raw image, unlike the greyscaled grid check), +20 for a near-common aspect
ratio, plus the rule-of-thirds points; the final
`Math.round(Math.max(0, Math.min(100, score)))` of a nonnegative integer
is `min 100 score`. -/
def calculateAlignmentScore (img : Raster) : ℕ :=
  let verticalLines := detectVerticalLines img
  let horizontalLines := detectHorizontalLines img
  let aspectRatio : ℚ := (img.width : ℚ) / (img.height : ℚ)
  let commonRatios : List ℚ := [16/9, 4/3, 3/2, 5/4, 1.618]
  let score :=
    (if 2 ≤ verticalLines.length then 25 else 0)
      + (if 2 ≤ horizontalLines.length then 25 else 0)
      + (if commonRatios.any (fun ratioC => decide (|aspectRatio - ratioC| < 1/10)) then 20 else 0)
      + checkRuleOfThirds img
  min 100 score

/-- `calculateCompositionScore`: 25 for grid alignment, 25/23/20 for
symmetric/radial/asymmetric balance, 25 for spacing consistency, plus
`alignmentScore/100 × 25`, rounded. -/
def balancePoints : Balance → ℕ
  | Balance.symmetric => 25
  | Balance.radial => 23
  | Balance.asymmetric => 20

def calculateCompositionScore (gridAlignment : Bool) (balance : Balance)
    (spacingConsistency : Bool) (alignmentScore : ℕ) : ℤ :=
  jsRound (((if gridAlignment then 25 else 0) + balancePoints balance
    + (if spacingConsistency then 25 else 0) : ℚ) + (alignmentScore : ℚ) / 100 * 25)

/-- The record `analyzeComposition` returns (`LayoutAnalysis` in
design-types.ts). -/
structure LayoutAnalysis where
  score : ℤ
  grid_alignment : Bool
  visual_hierarchy : List String
  balance : Balance
  spacing_consistency : Bool
  alignment_score : ℕ
deriving DecidableEq

/-- `CompositionAnalyzer.analyzeComposition`.  The body runs inside a
try/catch whose only throwing step is `Jimp.read` of the byte buffer; the
argument is that decode's result, and the catch branch is the `.error`
case. -/
noncomputable def analyzeComposition (decoded : Except String Raster)
    (design_type : String) : LayoutAnalysis :=
  match decoded with
  | Except.ok image =>
    let gridAlignment := analyzeGridAlignment image
    let visualHierarchy := analyzeVisualHierarchy image design_type
    let balance := analyzeBalance image
    let spacingConsistency := analyzeSpacing image
    let alignmentScore := calculateAlignmentScore image
    { score := calculateCompositionScore gridAlignment balance spacingConsistency alignmentScore
      grid_alignment := gridAlignment
      visual_hierarchy := visualHierarchy
      balance := balance
      spacing_consistency := spacingConsistency
      alignment_score := alignmentScore }
  | Except.error _ =>
    { score := 50
      grid_alignment := false
      visual_hierarchy := ["Unable to analyze hierarchy"]
      balance := Balance.asymmetric
      spacing_consistency := false
      alignment_score := 50 }

/-- A 10×10 raster of a single solid color (opaque black): the concrete
uniform image used to instantiate the composition theorems. -/
def uniformBlack10 : Raster :=
  { width := 10, height := 10, pix := fun _ _ => ⟨0, 0, 0, 255⟩ }

end CompositionModule

section SpecSide

/-- Hue difference on the 0–360° circle, as the shorter angular distance:
the spec's reading of the complementary test. -/
def circHueDist (a b : ℚ) : ℚ := min |a - b| (360 - |a - b|)

/-- The spec's complementary pair predicate: circular hue distance strictly
between 170° and 190°. -/
def specCompPair (c1 c2 : Color) : Prop :=
  170 < circHueDist (hueOf c1) (hueOf c2) ∧ circHueDist (hueOf c1) (hueOf c2) < 190

instance (c1 c2 : Color) : Decidable (specCompPair c1 c2) := by
  unfold specCompPair; infer_instance

/-- Number of unordered palette pairs that are complementary in the spec's
circular-distance sense. -/
def specCompPairCount : List Color → ℕ
  | [] => 0
  | c :: t => t.countP (fun c2 => decide (specCompPair c c2)) + specCompPairCount t

end SpecSide

/-! ## Theorems -/

/-- Rounding is monotone. -/
theorem jsRound_mono {a b : ℚ} (h : a ≤ b) : jsRound a ≤ jsRound b :=
  Int.floor_le_floor (by linarith)

/-- C5: for every quadruple of module scores, the aggregated overall score
equals round(0.25·color + 0.30·composition + 0.25·typography +
0.20·accessibility). -/
theorem overall_score_spec_eq (color composition typography accessibility : ℚ) :
    calculateOverallScore color composition typography accessibility
      = overallScoreSpec color composition typography accessibility := by
  unfold calculateOverallScore overallScoreSpec
  congr 1
  ring

/-- C4: the accessibility score equals the rounded, 100-capped sum of
25·(AA fraction) + 15·(AAA fraction) + 10 per safe-deficiency boolean +
the mean-ratio bonus, with the fraction and bonus terms 0 when there are
no contrast pairs. -/
theorem accessibility_score_spec_eq (checks : List ContrastCheck)
    (cb : ColorBlindnessSim) :
    calculateAccessibilityScore checks cb = accessibilityScoreSpec checks cb := by
  rcases Nat.eq_zero_or_pos checks.length with h | h
  · have h1 : ¬ (0 < checks.length) := by omega
    simp only [calculateAccessibilityScore, accessibilityScoreSpec, if_neg h1, if_pos h]
    congr 1
    ring_nf
  · have h1 : ¬ (checks.length = 0) := by omega
    simp only [calculateAccessibilityScore, accessibilityScoreSpec, if_pos h, if_neg h1]
    congr 1
    ring_nf

/-- C7: when the decode step feeding composition analysis fails (the only
throwing step of the source's try block), `analyzeComposition` returns
exactly the fixed degraded record: score 50, no grid alignment,
asymmetric balance, inconsistent spacing, alignment 50 and the single
hierarchy string. -/
theorem composition_degraded_on_error (err design_type : String) :
    analyzeComposition (Except.error err) design_type
      = { score := 50, grid_alignment := false
          visual_hierarchy := ["Unable to analyze hierarchy"]
          balance := Balance.asymmetric, spacing_consistency := false
          alignment_score := 50 } := rfl

/-- The WCAG contrast formula is symmetric in its two colors. -/
theorem contrastVal_comm (c1 c2 : Color) : contrastVal c1 c2 = contrastVal c2 c1 := by
  unfold contrastVal
  rcases lt_trichotomy (luminance c2) (luminance c1) with h | h | h
  · rw [if_pos h, if_neg (not_lt.mpr h.le)]
  · rw [h]
  · rw [if_neg (not_lt.mpr h.le), if_pos h]

/-- C8: `calculateContrast` (including its parse-failure fallback to 1) is
symmetric in its two arguments. -/
theorem contrast_ratio_symm (foreground background : Option Color) :
    calculateContrast foreground background = calculateContrast background foreground := by
  cases foreground <;> cases background <;>
    simp only [calculateContrast]
  exact contrastVal_comm _ _

/-- C9: on an empty text-box list the typography metrics are all zero:
font count 0, hierarchy score 0, readability score 0. -/
theorem typography_empty_zero :
    estimateFontCount [] = 0 ∧ analyzeHierarchy [] = 0 ∧ analyzeReadability [] = 0 :=
  ⟨rfl, rfl, rfl⟩

/-- C10: when either input string fails to parse as a color, the public
combination check returns ratio 0 with both pass flags false (the catch
branch), while the Color Module's contrast primitive degrades to ratio 1
instead. -/
theorem color_combination_invalid_input (foreground background : Option Color)
    (h : foreground = none ∨ background = none) :
    checkColorCombination foreground background
        = ⟨0, false, false, "Invalid color combination"⟩
      ∧ calculateContrast foreground background = 1 := by
  rcases h with h | h
  · subst h
    cases background <;> exact ⟨rfl, rfl⟩
  · subst h
    cases foreground <;> exact ⟨rfl, rfl⟩

/-- Witness for C10 at the concrete input (none, none). -/
theorem color_combination_invalid_input_witness :
    checkColorCombination none none = ⟨0, false, false, "Invalid color combination"⟩
      ∧ calculateContrast none none = 1 :=
  color_combination_invalid_input none none (Or.inl rfl)

/-- Indicator of a conjunction is the product of indicators. -/
theorem indicator_and_mul (P Q : Prop) [Decidable P] [Decidable Q] :
    (if P ∧ Q then (1:ℕ) else 0) = (if P then 1 else 0) * (if Q then 1 else 0) := by
  by_cases hP : P <;> by_cases hQ : Q <;> simp [hP, hQ]

/-- C2 (amended): for positive dimensions, the nine regions are pairwise
non-overlapping (each pixel is covered at most once) and all have exactly
width ⌊w/3⌋ and height ⌊h/3⌋; a pixel is covered exactly once iff it lies
inside the 3⌊w/3⌋ × 3⌊h/3⌋ sub-rectangle, so the tiling covers the whole
raster only when 3 divides both dimensions — the remainder rows/columns
are dropped, not narrowed. -/
theorem regions_tiling (w h : ℕ) (hw : 0 < w) (hh : 0 < h) (x y : ℕ) (hx : x < w) (hy : y < h) :
    ((divideIntoRegions w h).countP (fun reg => decide (covers reg x y)) = 1
        ↔ x < 3 * (w / 3) ∧ y < 3 * (h / 3))
      ∧ (divideIntoRegions w h).countP (fun reg => decide (covers reg x y)) ≤ 1
      ∧ ∀ reg ∈ divideIntoRegions w h, reg.width = w / 3 ∧ reg.height = h / 3 := by
  have hlist : divideIntoRegions w h =
      [⟨0, 0, w/3, h/3⟩, ⟨w/3, 0, w/3, h/3⟩, ⟨2*(w/3), 0, w/3, h/3⟩,
       ⟨0, h/3, w/3, h/3⟩, ⟨w/3, h/3, w/3, h/3⟩, ⟨2*(w/3), h/3, w/3, h/3⟩,
       ⟨0, 2*(h/3), w/3, h/3⟩, ⟨w/3, 2*(h/3), w/3, h/3⟩, ⟨2*(w/3), 2*(h/3), w/3, h/3⟩] := by
    simp [divideIntoRegions, List.range_succ]
  have key : (divideIntoRegions w h).countP (fun reg => decide (covers reg x y))
      = ((if 0 ≤ x then 1 else 0) * (if x < 0 + w/3 then 1 else 0)
          + (if w/3 ≤ x then 1 else 0) * (if x < w/3 + w/3 then 1 else 0)
          + (if 2*(w/3) ≤ x then 1 else 0) * (if x < 2*(w/3) + w/3 then 1 else 0))
        * ((if 0 ≤ y then 1 else 0) * (if y < 0 + h/3 then 1 else 0)
          + (if h/3 ≤ y then 1 else 0) * (if y < h/3 + h/3 then 1 else 0)
          + (if 2*(h/3) ≤ y then 1 else 0) * (if y < 2*(h/3) + h/3 then 1 else 0)) := by
    rw [hlist]
    simp only [List.countP_cons, List.countP_nil, decide_eq_true_eq, covers,
      ← and_assoc, indicator_and_mul]
    ring
  have hA : ((if 0 ≤ x then (1:ℕ) else 0) * (if x < 0 + w/3 then 1 else 0)
      + (if w/3 ≤ x then 1 else 0) * (if x < w/3 + w/3 then 1 else 0)
      + (if 2*(w/3) ≤ x then 1 else 0) * (if x < 2*(w/3) + w/3 then 1 else 0))
      = if x < 3*(w/3) then 1 else 0 := by
    split_ifs <;> omega
  have hB : ((if 0 ≤ y then (1:ℕ) else 0) * (if y < 0 + h/3 then 1 else 0)
      + (if h/3 ≤ y then 1 else 0) * (if y < h/3 + h/3 then 1 else 0)
      + (if 2*(h/3) ≤ y then 1 else 0) * (if y < 2*(h/3) + h/3 then 1 else 0))
      = if y < 3*(h/3) then 1 else 0 := by
    split_ifs <;> omega
  rw [hA, hB] at key
  refine ⟨?_, ?_, ?_⟩
  · rw [key]; split_ifs <;> simp_all
  · rw [key]; split_ifs <;> simp
  · intro reg hreg
    rw [hlist] at hreg
    simp only [List.mem_cons, List.not_mem_nil, or_false] at hreg
    rcases hreg with rfl|rfl|rfl|rfl|rfl|rfl|rfl|rfl|rfl <;> exact ⟨rfl, rfl⟩

/-- C2 counterexample to the claim as stated: in a 4×3 raster, the raster
pixel (3, 0) is covered by none of the nine regions (count 0, not 1), so
the regions do not cover every pixel. -/
theorem regions_leave_gap :
    (3 < 4 ∧ 0 < 3)
      ∧ (divideIntoRegions 4 3).countP (fun reg => decide (covers reg 3 0)) = 0 := by
  decide

/-- Witness for C2 at the concrete raster 4×3 and pixel (0, 0). -/
theorem regions_tiling_witness :
    ((divideIntoRegions 4 3).countP (fun reg => decide (covers reg 0 0)) = 1
        ↔ 0 < 3 * (4 / 3) ∧ 0 < 3 * (3 / 3))
      ∧ (divideIntoRegions 4 3).countP (fun reg => decide (covers reg 0 0)) ≤ 1
      ∧ ∀ reg ∈ divideIntoRegions 4 3, reg.width = 4 / 3 ∧ reg.height = 3 / 3 :=
  regions_tiling 4 3 (by decide) (by decide) 0 0 (by decide) (by decide)

/-- A quotient by a positive denominator stays within [−1, 1] when the
numerator is within [−d, d]. -/
theorem div_unit_bounds {d a : ℚ} (hd : 0 < d) (h1 : -d ≤ a) (h2 : a ≤ d) :
    -1 ≤ a / d ∧ a / d ≤ 1 :=
  ⟨(le_div_iff₀ hd).mpr (by linarith), (div_le_one hd).mpr h2⟩

/-- The hue chroma-js produces (with the analyzer's `|| 0` fallback) always
lies in [0, 360). -/
theorem hueOf_bounds (c : Color) : 0 ≤ hueOf c ∧ hueOf c < 360 := by
  simp only [hueOf]
  set M : ℕ := max c.r (max c.g c.b) with hM
  set m : ℕ := min c.r (min c.g c.b) with hm
  by_cases heq : M = m
  · simp [heq]
  · have hrle : c.r ≤ M := le_max_left _ _
    have hgle : c.g ≤ M := le_trans (le_max_left _ _) (le_max_right _ _)
    have hble : c.b ≤ M := le_trans (le_max_right _ _) (le_max_right _ _)
    have hrge : m ≤ c.r := min_le_left _ _
    have hgge : m ≤ c.g := le_trans (min_le_right _ _) (min_le_left _ _)
    have hbge : m ≤ c.b := le_trans (min_le_right _ _) (min_le_right _ _)
    have hlt : m < M := lt_of_le_of_ne (le_trans hrge hrle) (fun hEq => heq hEq.symm)
    have hd : (0:ℚ) < (M : ℚ) - (m : ℚ) := by
      have hcast : (m : ℚ) < (M : ℚ) := by exact_mod_cast hlt
      linarith
    have hg1 : (m : ℚ) ≤ (c.g : ℚ) := by exact_mod_cast hgge
    have hg2 : (c.g : ℚ) ≤ (M : ℚ) := by exact_mod_cast hgle
    have hb1q : (m : ℚ) ≤ (c.b : ℚ) := by exact_mod_cast hbge
    have hb2q : (c.b : ℚ) ≤ (M : ℚ) := by exact_mod_cast hble
    have hr1 : (m : ℚ) ≤ (c.r : ℚ) := by exact_mod_cast hrge
    have hr2 : (c.r : ℚ) ≤ (M : ℚ) := by exact_mod_cast hrle
    have hgb := div_unit_bounds hd (by linarith)
      (by linarith : (c.g : ℚ) - (c.b : ℚ) ≤ (M : ℚ) - (m : ℚ))
    have hbr := div_unit_bounds hd (by linarith)
      (by linarith : (c.b : ℚ) - (c.r : ℚ) ≤ (M : ℚ) - (m : ℚ))
    have hrg := div_unit_bounds hd (by linarith)
      (by linarith : (c.r : ℚ) - (c.g : ℚ) ≤ (M : ℚ) - (m : ℚ))
    rw [if_neg heq]
    generalize hR : (if c.r = M then ((c.g : ℚ) - (c.b : ℚ)) / ((M : ℚ) - (m : ℚ))
      else if c.g = M then 2 + ((c.b : ℚ) - (c.r : ℚ)) / ((M : ℚ) - (m : ℚ))
      else 4 + ((c.r : ℚ) - (c.g : ℚ)) / ((M : ℚ) - (m : ℚ))) = R
    have hRb : -1 ≤ R ∧ R ≤ 5 := by
      rw [← hR]
      split_ifs <;> constructor <;>
        linarith [hgb.1, hgb.2, hbr.1, hbr.2, hrg.1, hrg.2]
    rcases hRb with ⟨hRlo, hRhi⟩
    split_ifs with hneg <;> constructor <;> linarith

/-- The source's raw absolute hue difference lies in (170, 190) exactly when
the circular shorter distance does: for a difference below 180 the two
coincide, and for a difference in (180, 190) the wrap-around 360−diff lands
in (170, 180), and conversely.  (Raw differences of 360-bounded hues never
exceed 360, so no further cases arise.) -/
theorem circ_equiv (a b : ℚ) :
    (170 < |a - b| ∧ |a - b| < 190) ↔ (170 < circHueDist a b ∧ circHueDist a b < 190) := by
  unfold circHueDist
  rcases le_total |a - b| (360 - |a - b|) with h | h
  · rw [min_eq_left h]
  · rw [min_eq_right h]
    constructor <;> rintro ⟨h1, h2⟩ <;> constructor <;> linarith

/-- Pointwise: the code's pair test agrees with the spec's circular one. -/
theorem rawCompPair_iff_spec (c1 c2 : Color) :
    rawCompPair (hueOf c1) (hueOf c2) = true ↔ specCompPair c1 c2 := by
  unfold rawCompPair specCompPair
  rw [decide_eq_true_eq]
  exact circ_equiv (hueOf c1) (hueOf c2)

/-- The code's complementary pair count equals the spec's circular-distance
pair count. -/
theorem compPairCount_map_eq (colors : List Color) :
    compPairCount (colors.map hueOf) = specCompPairCount colors := by
  induction colors with
  | nil => rfl
  | cons c t ih =>
    simp only [List.map_cons, compPairCount, specCompPairCount, List.countP_map, ih]
    congr 1
    apply List.countP_congr
    intro c2 _
    have h := rawCompPair_iff_spec c c2
    constructor
    · intro hx
      simp [h.mp hx]
    · intro hx
      simp only [Function.comp]
      exact h.mpr (by simpa using hx)

/-- The spec pair count is positive exactly when some ordered-position
(hence unordered) pair of palette entries is complementary. -/
theorem specCompPairCount_pos (colors : List Color) :
    0 < specCompPairCount colors
      ↔ ∃ c1 c2, List.Sublist [c1, c2] colors ∧ specCompPair c1 c2 := by
  induction colors with
  | nil =>
    simp only [specCompPairCount]
    constructor
    · intro h; exact absurd h (by omega)
    · rintro ⟨c1, c2, hsub, _⟩
      have := List.sublist_nil.mp hsub
      simp at this
  | cons c t ih =>
    simp only [specCompPairCount]
    constructor
    · intro hpos
      rcases Nat.eq_zero_or_pos (t.countP (fun c2 => decide (specCompPair c c2))) with hz | hp
      · have hrest : 0 < specCompPairCount t := by omega
        obtain ⟨c1, c2, hsub, hpair⟩ := ih.mp hrest
        exact ⟨c1, c2, hsub.cons c, hpair⟩
      · obtain ⟨c2, hc2, hpair⟩ := List.countP_pos_iff.mp hp
        exact ⟨c, c2, List.Sublist.cons₂ c (List.singleton_sublist.mpr hc2),
          of_decide_eq_true hpair⟩
    · rintro ⟨c1, c2, hsub, hpair⟩
      cases hsub with
      | cons _ hsub2 =>
        have : 0 < specCompPairCount t := ih.mpr ⟨c1, c2, hsub2, hpair⟩
        omega
      | cons₂ _ hsub2 =>
        have hc2 : c2 ∈ t := List.singleton_sublist.mp hsub2
        have : 0 < t.countP (fun x => decide (specCompPair c x)) :=
          List.countP_pos_iff.mpr ⟨c2, hc2, decide_eq_true hpair⟩
        omega

/-- C3: for a palette of at least two colors, the harmony type is
`complementary` exactly when some unordered pair of palette colors has
circular hue distance strictly between 170° and 190°, this classification
preempting every other branch; and in that case the score is
min(85 + 5·pair_count, 100) with pair_count the number of such pairs. -/
theorem harmony_complementary_iff (colors : List Color) (h2 : 2 ≤ colors.length) :
    ((analyzeColorHarmony colors).harmony_type = "complementary"
        ↔ ∃ c1 c2, List.Sublist [c1, c2] colors ∧ specCompPair c1 c2)
      ∧ ((analyzeColorHarmony colors).harmony_type = "complementary" →
          (analyzeColorHarmony colors).score = min (85 + 5 * specCompPairCount colors) 100) := by
  have hnot : ¬ (colors.length < 2) := by omega
  by_cases hc : 0 < compPairCount (colors.map hueOf)
  · have htype : analyzeColorHarmony colors
        = ⟨"complementary", min (85 + compPairCount (colors.map hueOf) * 5) 100⟩ := by
      unfold analyzeColorHarmony
      rw [if_neg hnot, if_pos hc]
    rw [htype]
    have hex : ∃ c1 c2, List.Sublist [c1, c2] colors ∧ specCompPair c1 c2 :=
      (specCompPairCount_pos colors).mp (compPairCount_map_eq colors ▸ hc)
    constructor
    · exact iff_of_true rfl hex
    · intro _
      show min (85 + compPairCount (colors.map hueOf) * 5) 100
        = min (85 + 5 * specCompPairCount colors) 100
      rw [compPairCount_map_eq, Nat.mul_comm]
  · have hnospec : ¬ ∃ c1 c2, List.Sublist [c1, c2] colors ∧ specCompPair c1 c2 := by
      rw [← specCompPairCount_pos, ← compPairCount_map_eq]
      exact hc
    unfold analyzeColorHarmony
    rw [if_neg hnot, if_neg hc]
    split_ifs <;>
      exact ⟨iff_of_false (by simp) hnospec, fun hbad => absurd hbad (by simp)⟩

/-- Witness for C3 at the palette [#ff0000, #00ffff] (hues 0° and 180°). -/
theorem harmony_complementary_iff_witness :
    ((analyzeColorHarmony [⟨255, 0, 0⟩, ⟨0, 255, 255⟩]).harmony_type = "complementary"
        ↔ ∃ c1 c2, List.Sublist [c1, c2] [⟨255, 0, 0⟩, ⟨0, 255, 255⟩] ∧ specCompPair c1 c2)
      ∧ ((analyzeColorHarmony [⟨255, 0, 0⟩, ⟨0, 255, 255⟩]).harmony_type = "complementary" →
          (analyzeColorHarmony [⟨255, 0, 0⟩, ⟨0, 255, 255⟩]).score
            = min (85 + 5 * specCompPairCount [⟨255, 0, 0⟩, ⟨0, 255, 255⟩]) 100) :=
  harmony_complementary_iff [⟨255, 0, 0⟩, ⟨0, 255, 255⟩] (by decide)

/-- C6: holding the deficiency booleans, the pair count, the AAA-passing
count and the ratio sum (hence the mean ratio) fixed, the accessibility
score is non-decreasing in the number (hence fraction) of AA-passing
pairs. -/
theorem accessibility_score_monotone_aa (checks1 checks2 : List ContrastCheck)
    (cb : ColorBlindnessSim)
    (hlen : checks1.length = checks2.length)
    (haaa : checks1.countP (fun c => c.passes_aaa) = checks2.countP (fun c => c.passes_aaa))
    (hsum : (checks1.map (fun c => c.ratioVal)).sum = (checks2.map (fun c => c.ratioVal)).sum)
    (haa : checks1.countP (fun c => c.passes_aa) ≤ checks2.countP (fun c => c.passes_aa)) :
    calculateAccessibilityScore checks1 cb ≤ calculateAccessibilityScore checks2 cb := by
  simp only [calculateAccessibilityScore]
  rcases Nat.eq_zero_or_pos checks1.length with h0 | hpos
  · have hn1 : ¬ (0 < checks1.length) := by omega
    have hn2 : ¬ (0 < checks2.length) := by omega
    rw [if_neg hn1, if_neg hn2, if_neg hn1, if_neg hn2]
  · have hpos2 : 0 < checks2.length := by omega
    rw [if_pos hpos, if_pos hpos2, if_pos hpos, if_pos hpos2, hlen, hsum, haaa]
    apply jsRound_mono
    apply min_le_min _ le_rfl
    have hcast : ((checks1.countP (fun c => c.passes_aa) : ℕ) : ℚ)
        ≤ ((checks2.countP (fun c => c.passes_aa) : ℕ) : ℚ) := by exact_mod_cast haa
    have hinv : (0:ℚ) ≤ ((checks2.length : ℚ))⁻¹ := by positivity
    have hdiv : ((checks1.countP (fun c => c.passes_aa) : ℕ) : ℚ) / (checks2.length : ℚ)
        ≤ ((checks2.countP (fun c => c.passes_aa) : ℕ) : ℚ) / (checks2.length : ℚ) := by
      rw [div_eq_mul_inv, div_eq_mul_inv]
      exact mul_le_mul_of_nonneg_right hcast hinv
    have h25 : ((checks1.countP (fun c => c.passes_aa) : ℕ) : ℚ) / (checks2.length : ℚ) * 25
        ≤ ((checks2.countP (fun c => c.passes_aa) : ℕ) : ℚ) / (checks2.length : ℚ) * 25 := by
      linarith
    linarith

/-- Witness for C6: one pair with ratio 5, failing AA on the left and
passing it on the right, all else fixed. -/
theorem accessibility_score_monotone_aa_witness :
    calculateAccessibilityScore [⟨⟨0, 0, 0⟩, ⟨255, 255, 255⟩, 5, false, false, "p"⟩]
        ⟨false, false, false⟩
      ≤ calculateAccessibilityScore [⟨⟨0, 0, 0⟩, ⟨255, 255, 255⟩, 5, true, false, "p"⟩]
        ⟨false, false, false⟩ :=
  accessibility_score_monotone_aa _ _ _ (by decide) (by decide) (by simp) (by decide)
